import Mathlib

/-!
Verification of the Smart-Personal-Expense-Categorizer core against its
natural-language specification.  The Python sources under
src/app/backend/api.py, src/models/predict.py and src/models/train.py are
shallowly embedded below: strings are Lean strings (sequences of Unicode
code points, as in Python), float amounts and probabilities are rationals,
the log1p transform is kept as an uninterpreted tagged value, and the
sklearn pipeline loaded from the model artifact is an abstract record whose
probability-scoring operation may fail (raising, modelled as Except).
-/

namespace ExpenseCat

/-! ## Python string primitives used by the code -/

/-- ASCII lowercase table: Python str.lower restricted to the ASCII range,
which is the alphabet every keyword list in the repository uses. -/
def upperLowerTable : List (Char × Char) :=
  [('A', 'a'), ('B', 'b'), ('C', 'c'), ('D', 'd'), ('E', 'e'), ('F', 'f'),
   ('G', 'g'), ('H', 'h'), ('I', 'i'), ('J', 'j'), ('K', 'k'), ('L', 'l'),
   ('M', 'm'), ('N', 'n'), ('O', 'o'), ('P', 'p'), ('Q', 'q'), ('R', 'r'),
   ('S', 's'), ('T', 't'), ('U', 'u'), ('V', 'v'), ('W', 'w'), ('X', 'x'),
   ('Y', 'y'), ('Z', 'z')]

/-- Lowercase one character (Python str.lower, ASCII fragment). -/
def pyToLower (c : Char) : Char :=
  (((upperLowerTable.find? (fun p => p.1 == c)).map Prod.snd).getD c)

/-- Python s.lower(). -/
def lowerStr (s : String) : String :=
  ⟨s.data.map pyToLower⟩

/-- Python len(s): number of code points. -/
def strLen (s : String) : ℕ :=
  s.data.length

/-- Auxiliary for Python s.split(): count maximal non-whitespace runs.
The flag records whether the previous character was inside a word. -/
def countWordsAux : List Char → Bool → ℕ
  | [], _ => 0
  | c :: rest, inWord =>
    if c.isWhitespace then countWordsAux rest false
    else (if inWord then 0 else 1) + countWordsAux rest true

/-- Python len(s.split()). -/
def wordCount (s : String) : ℕ :=
  countWordsAux s.data false

/-- Python int(bool(any(char.isdigit() for char in s))). -/
def hasDigitsN (s : String) : ℕ :=
  if s.data.any Char.isDigit then 1 else 0

/-- Is the first list a prefix of the second (character lists)? -/
def startsWithChars : List Char → List Char → Bool
  | [], _ => true
  | _ :: _, [] => false
  | a :: as, b :: bs => a == b && startsWithChars as bs

/-- Python substring containment needle in hay, on character lists. -/
def containsSub (hay needle : List Char) : Bool :=
  match hay with
  | [] => needle.isEmpty
  | _ :: t => startsWithChars needle hay || containsSub t needle

/-- Python needle in hay, on strings. -/
def strContains (hay needle : String) : Bool :=
  containsSub hay.data needle.data

/-! ## Fallback categorization (src/app/backend/api.py lines 77-96) -/

/-- Transport keyword list of fallback_categorization. -/
def transportKws : List String := ["uber", "taxi", "lyft", "bus", "metro", "train"]

/-- Food keyword list of fallback_categorization. -/
def foodKws : List String :=
  ["starbucks", "mcdonalds", "restaurant", "food", "coffee", "lunch", "dinner"]

/-- Shopping keyword list of fallback_categorization. -/
def shoppingKws : List String := ["amazon", "walmart", "target", "shop", "store", "best buy"]

/-- Entertainment keyword list of fallback_categorization. -/
def entertainmentKws : List String := ["netflix", "spotify", "cinema", "movie", "theater"]

/-- Utilities keyword list of fallback_categorization. -/
def utilitiesKws : List String := ["electric", "water", "internet", "phone", "bill", "utility"]

/-- Python any(word in description for word in kws). -/
def anyKw (kws : List String) (description : String) : Bool :=
  kws.any (fun k => strContains description k)

/-- Embedding of fallback_categorization(description, amount) from
src/app/backend/api.py: ordered keyword rules on the lower-cased
description, then the amount threshold, with fixed confidence 0.7. -/
def fallback_categorization (description : String) (amount : ℚ) : String × ℚ :=
  let d := lowerStr description
  if anyKw transportKws d then ("Transport", 7/10)
  else if anyKw foodKws d then ("Food", 7/10)
  else if anyKw shoppingKws d then ("Shopping", 7/10)
  else if anyKw entertainmentKws d then ("Entertainment", 7/10)
  else if anyKw utilitiesKws d then ("Utilities", 7/10)
  else if 1000 ≤ amount then ("Income", 7/10)
  else ("Other", 7/10)

end ExpenseCat

namespace ExpenseCat

/-- C1: For every description string (including the empty string) and every
amount (including 0), the fallback categorization returns exactly one
category and never raises, following the ordered rules: a transport keyword
in the lower-cased description yields Transport; otherwise a
food/restaurant keyword yields Food; otherwise a retail keyword yields
Shopping; otherwise a media/entertainment keyword yields Entertainment;
otherwise a utility-bill keyword yields Utilities; otherwise
amount at least 1000 yields Income; otherwise Other, with a fixed
confidence 0.7 lying in the interval from 0.5 to 0.7.  In particular,
UNKNOWN MERCHANT XYZ with amount 1500 yields Income. -/
theorem fallback_total_ordered_rules (description : String) (amount : ℚ) :
    (fallback_categorization description amount).2 = 7/10 ∧
    (1/2 : ℚ) ≤ (fallback_categorization description amount).2 ∧
    (fallback_categorization description amount).2 ≤ 7/10 ∧
    (anyKw transportKws (lowerStr description) = true →
      (fallback_categorization description amount).1 = "Transport") ∧
    (anyKw transportKws (lowerStr description) = false →
      anyKw foodKws (lowerStr description) = true →
      (fallback_categorization description amount).1 = "Food") ∧
    (anyKw transportKws (lowerStr description) = false →
      anyKw foodKws (lowerStr description) = false →
      anyKw shoppingKws (lowerStr description) = true →
      (fallback_categorization description amount).1 = "Shopping") ∧
    (anyKw transportKws (lowerStr description) = false →
      anyKw foodKws (lowerStr description) = false →
      anyKw shoppingKws (lowerStr description) = false →
      anyKw entertainmentKws (lowerStr description) = true →
      (fallback_categorization description amount).1 = "Entertainment") ∧
    (anyKw transportKws (lowerStr description) = false →
      anyKw foodKws (lowerStr description) = false →
      anyKw shoppingKws (lowerStr description) = false →
      anyKw entertainmentKws (lowerStr description) = false →
      anyKw utilitiesKws (lowerStr description) = true →
      (fallback_categorization description amount).1 = "Utilities") ∧
    (anyKw transportKws (lowerStr description) = false →
      anyKw foodKws (lowerStr description) = false →
      anyKw shoppingKws (lowerStr description) = false →
      anyKw entertainmentKws (lowerStr description) = false →
      anyKw utilitiesKws (lowerStr description) = false →
      1000 ≤ amount →
      (fallback_categorization description amount).1 = "Income") ∧
    (anyKw transportKws (lowerStr description) = false →
      anyKw foodKws (lowerStr description) = false →
      anyKw shoppingKws (lowerStr description) = false →
      anyKw entertainmentKws (lowerStr description) = false →
      anyKw utilitiesKws (lowerStr description) = false →
      amount < 1000 →
      (fallback_categorization description amount).1 = "Other") ∧
    fallback_categorization "UNKNOWN MERCHANT XYZ" 1500 = ("Income", 7/10) := by
  have hT : anyKw transportKws (lowerStr "UNKNOWN MERCHANT XYZ") = false := by decide
  have hF : anyKw foodKws (lowerStr "UNKNOWN MERCHANT XYZ") = false := by decide
  have hS : anyKw shoppingKws (lowerStr "UNKNOWN MERCHANT XYZ") = false := by decide
  have hE : anyKw entertainmentKws (lowerStr "UNKNOWN MERCHANT XYZ") = false := by decide
  have hU : anyKw utilitiesKws (lowerStr "UNKNOWN MERCHANT XYZ") = false := by decide
  simp only [fallback_categorization]
  refine ⟨?_, ?_, ?_, ?_, ?_, ?_, ?_, ?_, ?_, ?_, ?_⟩
  · split_ifs <;> norm_num
  · split_ifs <;> norm_num
  · split_ifs <;> norm_num
  · intro h1; simp [h1]
  · intro h1 h2; simp [h1, h2]
  · intro h1 h2 h3; simp [h1, h2, h3]
  · intro h1 h2 h3 h4; simp [h1, h2, h3, h4]
  · intro h1 h2 h3 h4 h5; simp [h1, h2, h3, h4, h5]
  · intro h1 h2 h3 h4 h5 h6; simp [h1, h2, h3, h4, h5, h6]
  · intro h1 h2 h3 h4 h5 h6; simp [h1, h2, h3, h4, h5, not_le.mpr h6]
  · simp [hT, hF, hS, hE, hU]
    norm_num

/-- Concrete check of the fallback rules: the transport branch fires on an
Uber ride and the Income threshold branch fires on a keywordless large
amount. -/
theorem fallback_total_ordered_rules_witness :
    (fallback_categorization "UBER RIDE #1234" (49/2)).1 = "Transport" ∧
    (fallback_categorization "UNKNOWN MERCHANT XYZ" 1500).1 = "Income" := by
  constructor
  · exact (fallback_total_ordered_rules "UBER RIDE #1234" (49/2)).2.2.2.1 (by decide)
  · have h := (fallback_total_ordered_rules "" 0).2.2.2.2.2.2.2.2.2.2
    rw [h]

/-! ## Feature extraction

Training-time feature engineering lives in ExpenseClassifier.load_data
(src/models/train.py lines 22-42, applied row by row to the CSV frame),
inference-time extraction in ExpensePredictor.preprocess_input
(src/models/predict.py lines 13-39) and in preprocess_for_prediction
(src/app/backend/api.py lines 45-75).  A feature record is an association
list from column name to value; the log1p transform is kept symbolic. -/

/-- A calendar date as the code consumes it: pandas dt.month and
datetime.month agree, and pandas dt.dayofweek and datetime.weekday() use
the same Monday=0 convention. -/
structure PyDate where
  month : ℕ
  weekday : ℕ
deriving DecidableEq

/-- A cell value of a feature record. log1p a stands for log(1 + a),
uninterpreted: two log1p cells are equal exactly when their arguments
are. -/
inductive FVal where
  | s (v : String)
  | q (v : ℚ)
  | n (v : ℕ)
  | log1p (v : ℚ)
  | date (v : PyDate)
deriving DecidableEq

/-- Bool to the 0/1 integer flags the Python code stores. -/
def bn (b : Bool) : ℕ := if b then 1 else 0

/-- The shared keyword vocabulary (identical literal lists in train.py
load_data, predict.py preprocess_input and api.py
preprocess_for_prediction). -/
def featureKeywords : List String :=
  ["uber", "amazon", "netflix", "starbucks", "mcdonalds",
   "walmart", "target", "gas", "groceries", "restaurant"]

/-- One row of data/raw/transactions.csv as written by the synthetic data
generator: columns date, description, amount, category, payment_method,
user_id. -/
structure CsvRow where
  date : PyDate
  description : String
  amount : ℚ
  category : String
  payment_method : String
  user_id : String
deriving DecidableEq

/-- Embedding of ExpenseClassifier.load_data restricted to one row
(src/models/train.py lines 26-40): the description column is overwritten
with its lower-cased form first, so description_length, word_count,
has_digits and the keyword flags are all computed on the lower-cased
string; the engineered columns are appended after the CSV columns in
assignment order. -/
def load_data_row (r : CsvRow) : List (String × FVal) :=
  let dlow := lowerStr r.description
  [("date", FVal.date r.date),
   ("description", FVal.s dlow),
   ("amount", FVal.q r.amount),
   ("category", FVal.s r.category),
   ("payment_method", FVal.s r.payment_method),
   ("user_id", FVal.s r.user_id),
   ("description_length", FVal.n (strLen dlow)),
   ("word_count", FVal.n (wordCount dlow)),
   ("has_digits", FVal.n (hasDigitsN dlow)),
   ("amount_log", FVal.log1p r.amount),
   ("month", FVal.n r.date.month),
   ("day_of_week", FVal.n r.date.weekday)]
  ++ featureKeywords.map (fun k => ("has_" ++ k, FVal.n (bn (strContains dlow k))))

/-- Embedding of ExpenseClassifier.load_data (src/models/train.py lines
22-42) over the whole frame. -/
def load_data (rows : List CsvRow) : List (List (String × FVal)) :=
  rows.map load_data_row

/-- Embedding of ExpensePredictor.preprocess_input (src/models/predict.py
lines 13-39).  now stands for datetime.now(), used when no date is given;
lexical statistics are computed on the original description, the keyword
flags on the lower-cased one, and a constant payment_method column is
added. -/
def preprocess_input (now : PyDate) (description : String) (amount : ℚ)
    (date : Option PyDate) : List (String × FVal) :=
  let dt := date.getD now
  let dlow := lowerStr description
  [("description", FVal.s dlow),
   ("amount", FVal.q amount),
   ("description_length", FVal.n (strLen description)),
   ("word_count", FVal.n (wordCount description)),
   ("has_digits", FVal.n (hasDigitsN description)),
   ("amount_log", FVal.log1p amount),
   ("month", FVal.n dt.month),
   ("day_of_week", FVal.n dt.weekday),
   ("payment_method", FVal.s "Unknown")]
  ++ featureKeywords.map (fun k => ("has_" ++ k, FVal.n (bn (strContains dlow k))))

/-- Embedding of preprocess_for_prediction (src/app/backend/api.py lines
45-75): as preprocess_input but without the payment_method column. -/
def preprocess_for_prediction (now : PyDate) (description : String) (amount : ℚ)
    (date : Option PyDate) : List (String × FVal) :=
  let dt := date.getD now
  let dlow := lowerStr description
  [("description", FVal.s dlow),
   ("amount", FVal.q amount),
   ("description_length", FVal.n (strLen description)),
   ("word_count", FVal.n (wordCount description)),
   ("has_digits", FVal.n (hasDigitsN description)),
   ("amount_log", FVal.log1p amount),
   ("month", FVal.n dt.month),
   ("day_of_week", FVal.n dt.weekday)]
  ++ featureKeywords.map (fun k => ("has_" ++ k, FVal.n (bn (strContains dlow k))))

/-! Lowercasing preserves the lexical statistics: ASCII lowercasing maps
letters to letters, so whitespace and digit tests, and hence lengths,
word counts and digit flags, are unchanged. -/

/-- Any character predicate that agrees across each pair of the lowercase
table is preserved by pyToLower. -/
theorem pvalue_pres (P : Char → Bool) (c : Char) (l : List (Char × Char))
    (h : ∀ p ∈ l, P p.2 = P p.1) :
    P ((((l.find? (fun p => p.1 == c)).map Prod.snd).getD c)) = P c := by
  induction l with
  | nil => rfl
  | cons p t ih =>
      by_cases hp : p.1 == c
      · have hc : p.1 = c := beq_iff_eq.mp hp
        have hgoal : P p.2 = P c := by rw [h p (List.mem_cons_self p t), hc]
        simpa [List.find?, hp] using hgoal
      · simp only [List.find?, hp]
        exact ih (fun q hq => h q (List.mem_cons_of_mem p hq))

/-- pyToLower preserves whitespace-ness. -/
theorem isWhitespace_pyToLower (c : Char) :
    (pyToLower c).isWhitespace = c.isWhitespace := by
  unfold pyToLower
  exact pvalue_pres Char.isWhitespace c upperLowerTable (by decide)

/-- pyToLower preserves digit-ness. -/
theorem isDigit_pyToLower (c : Char) :
    (pyToLower c).isDigit = c.isDigit := by
  unfold pyToLower
  exact pvalue_pres Char.isDigit c upperLowerTable (by decide)

/-- Lowercasing does not change the length. -/
theorem strLen_lowerStr (s : String) : strLen (lowerStr s) = strLen s := by
  simp [strLen, lowerStr]

/-- Lowercasing does not change the whitespace-delimited word count. -/
theorem countWordsAux_map_pyToLower (l : List Char) :
    ∀ b, countWordsAux (l.map pyToLower) b = countWordsAux l b := by
  induction l with
  | nil => intro b; rfl
  | cons c t ih =>
      intro b
      simp only [List.map_cons, countWordsAux, isWhitespace_pyToLower]
      by_cases hw : c.isWhitespace <;> simp [hw, ih]

/-- Lowercasing does not change the word count. -/
theorem wordCount_lowerStr (s : String) : wordCount (lowerStr s) = wordCount s := by
  simpa [wordCount, lowerStr] using countWordsAux_map_pyToLower s.data false

/-- Lowercasing does not change the digit flag. -/
theorem hasDigitsN_lowerStr (s : String) : hasDigitsN (lowerStr s) = hasDigitsN s := by
  simp [hasDigitsN, lowerStr, List.any_map]
  congr 1
  simp [Function.comp_def, isDigit_pyToLower]

/-- The engineered feature columns shared by training and inference, in
the order both sides emit them. -/
def featureCols : List String :=
  ["description", "amount", "description_length", "word_count",
   "has_digits", "amount_log", "month", "day_of_week"]
  ++ featureKeywords.map (fun k => "has_" ++ k)

/-- A concrete CSV row used to compare the two extraction paths. -/
def c8Row : CsvRow :=
  { date := ⟨3, 1⟩, description := "UBER RIDE #1234", amount := 10,
    category := "Transport", payment_method := "Credit Card",
    user_id := "user_001" }

/-- C8 counterexample: at the fixed triple (UBER RIDE #1234, 10, March
Tuesday) the training-time record and the inference-time record are not
identical: the training frame carries the payment_method read from the
dataset (Credit Card) while preprocess_input hardcodes Unknown, so the
records disagree on the payment_method field (and the training frame
additionally keeps date, category and user_id columns). -/
theorem train_inference_records_differ :
    List.lookup "payment_method" (load_data_row c8Row) =
      some (FVal.s "Credit Card") ∧
    List.lookup "payment_method"
        (preprocess_input ⟨3, 1⟩ "UBER RIDE #1234" 10 (some ⟨3, 1⟩)) =
      some (FVal.s "Unknown") ∧
    load_data_row c8Row ≠
      preprocess_input ⟨3, 1⟩ "UBER RIDE #1234" 10 (some ⟨3, 1⟩) := by
  refine ⟨by decide, by decide, ?_⟩
  intro h
  have := congrArg (List.lookup "payment_method") h
  revert this
  decide

/-- C8 as amended: for every fixed (description, amount, date) triple the
training-time and inference-time extractions agree on all the shared
engineered feature columns (description, amount, description_length,
word_count, has_digits, amount_log, month, day_of_week and the ten
keyword flags) in the same order, the lexical statistics coinciding in
value because ASCII lowercasing preserves length, whitespace and digits;
the full records themselves are not identical, inference adding the
constant payment_method column Unknown where training passes the dataset
value through. -/
theorem train_inference_shared_features (r : CsvRow) (now : PyDate) :
    (load_data_row r).filter (fun p => featureCols.contains p.1) =
    (preprocess_input now r.description r.amount (some r.date)).filter
      (fun p => featureCols.contains p.1) := by
  simp [load_data_row, preprocess_input, featureCols, featureKeywords,
    List.filter, strLen_lowerStr, wordCount_lowerStr, hasDigitsN_lowerStr]

/-- Concrete check of the shared-feature agreement at the c8Row triple. -/
theorem train_inference_shared_features_witness :
    (load_data_row c8Row).filter (fun p => featureCols.contains p.1) =
    (preprocess_input ⟨7, 4⟩ c8Row.description c8Row.amount
        (some c8Row.date)).filter (fun p => featureCols.contains p.1) :=
  train_inference_shared_features c8Row ⟨7, 4⟩

/-! ## The predictor (src/models/predict.py)

The persisted sklearn pipeline is abstract: a list of classes (ordered as
the probability columns of predict_proba) together with a
probability-scoring operation on feature records that may raise, modelled
as Except.  The pipeline classification returns the class of the first
maximal probability, which is what sklearn predict computes for these
classifiers. -/

/-- The loaded pipeline of a model artifact. -/
structure MLModel where
  classes : List String
  proba : List (String × FVal) → Except String (List ℚ)

/-- np.max over a probability vector. -/
def listMax : List ℚ → ℚ
  | [] => 0
  | [x] => x
  | x :: y :: t => max x (listMax (y :: t))

/-- np.argmax: index of the first maximal entry. -/
def argmaxIdx : List ℚ → ℕ
  | [] => 0
  | [_] => 0
  | x :: y :: t => if listMax (y :: t) ≤ x then 0 else argmaxIdx (y :: t) + 1

/-- sklearn model.predict on a single record: the class whose
predict_proba column is (first) maximal. -/
def skPredictClass (classes : List String) (probs : List ℚ) : String :=
  classes.getD (argmaxIdx probs) ""

/-- The hardcoded self.categories list of ExpensePredictor
(src/models/predict.py lines 10-11). -/
def predictorCategories : List String :=
  ["Food", "Transport", "Shopping", "Entertainment",
   "Utilities", "Healthcare", "Income", "Other"]

/-- Result dictionary of ExpensePredictor.predict: the success shape of
lines 54-60 and the exception shape of lines 63-67. -/
inductive PredResult where
  | ok (category : String) (confidence : ℚ)
      (all_probabilities : List (String × ℚ))
      (description : String) (amount : ℚ)
  | err (category : String) (confidence : ℚ) (error : String)
deriving DecidableEq

/-- A transaction dictionary as consumed by predict_batch. -/
structure TxDict where
  description : String
  amount : ℚ
  date : Option PyDate
deriving DecidableEq

/-- Embedding of ExpensePredictor.predict (src/models/predict.py lines
41-67): preprocess, score, pair the hardcoded category list with the
probability vector; any exception is caught and turned into the fixed
Other / 0.0 dictionary. -/
def predictor_predict (m : MLModel) (now : PyDate) (description : String)
    (amount : ℚ) (date : Option PyDate) : PredResult :=
  match m.proba (preprocess_input now description amount date) with
  | .ok probs =>
      .ok (skPredictClass m.classes probs) (listMax probs)
        (List.zip predictorCategories probs) description amount
  | .error e => .err "Other" 0 e

/-- Embedding of ExpensePredictor.predict_batch (src/models/predict.py
lines 69-79): the loop appending predict of each transaction in order. -/
def predictor_predict_batch (m : MLModel) (now : PyDate)
    (txs : List TxDict) : List PredResult :=
  txs.map (fun t => predictor_predict m now t.description t.amount t.date)

/-- listMax of a cons with nonempty tail. -/
theorem listMax_cons (x : ℚ) (t : List ℚ) (h : t ≠ []) :
    listMax (x :: t) = max x (listMax t) := by
  cases t with
  | nil => exact absurd rfl h
  | cons y s => rfl

/-- The maximum of a nonempty list is an element of it. -/
theorem listMax_mem (l : List ℚ) (h : l ≠ []) : listMax l ∈ l := by
  induction l with
  | nil => exact absurd rfl h
  | cons x t ih =>
      cases t with
      | nil => simp [listMax]
      | cons y s =>
          rw [listMax_cons x (y :: s) (by simp)]
          rcases max_cases x (listMax (y :: s)) with ⟨he, _⟩ | ⟨he, _⟩
          · rw [he]; exact List.mem_cons_self x (y :: s)
          · rw [he]; exact List.mem_cons_of_mem x (ih (by simp))

/-- Every element is at most the maximum. -/
theorem le_listMax (l : List ℚ) (x : ℚ) (hx : x ∈ l) : x ≤ listMax l := by
  induction l with
  | nil => cases hx
  | cons a t ih =>
      cases t with
      | nil =>
          rcases List.mem_singleton.mp hx with rfl
          simp [listMax]
      | cons y s =>
          rw [listMax_cons a (y :: s) (by simp)]
          rcases List.mem_cons.mp hx with rfl | hm
          · exact le_max_left _ _
          · exact le_trans (ih hm) (le_max_right _ _)

/-- The argmax index of a nonempty list is in range. -/
theorem argmaxIdx_lt (l : List ℚ) (h : l ≠ []) : argmaxIdx l < l.length := by
  induction l with
  | nil => exact absurd rfl h
  | cons x t ih =>
      cases t with
      | nil => simp [argmaxIdx]
      | cons y s =>
          simp only [argmaxIdx]
          split_ifs
          · simp
          · have := ih (by simp)
            simpa [Nat.succ_lt_succ_iff] using this

/-- The entry at the argmax index is the maximum. -/
theorem getD_argmaxIdx (l : List ℚ) (h : l ≠ []) :
    l.getD (argmaxIdx l) 0 = listMax l := by
  induction l with
  | nil => exact absurd rfl h
  | cons x t ih =>
      cases t with
      | nil => simp [argmaxIdx, listMax]
      | cons y s =>
          rw [listMax_cons x (y :: s) (by simp)]
          simp only [argmaxIdx]
          split_ifs with hc
          · simp [max_eq_left hc]
          · push_neg at hc
            rw [max_eq_right (le_of_lt hc)]
            simpa using ih (by simp)

/-- The maximum of a nonempty nonnegative list is at most its sum. -/
theorem listMax_le_sum (l : List ℚ) (h : l ≠ [])
    (hpos : ∀ x ∈ l, 0 ≤ x) : listMax l ≤ l.sum := by
  induction l with
  | nil => exact absurd rfl h
  | cons x t ih =>
      cases t with
      | nil => simp [listMax]
      | cons y s =>
          rw [listMax_cons x (y :: s) (by simp), List.sum_cons]
          have hsum : 0 ≤ (y :: s).sum :=
            List.sum_nonneg (fun a ha => hpos a (List.mem_cons_of_mem x ha))
          have hx : 0 ≤ x := hpos x (List.mem_cons_self x (y :: s))
          have h1 : x ≤ x + (y :: s).sum := by linarith
          have h2 : listMax (y :: s) ≤ x + (y :: s).sum := by
            have := ih (by simp) (fun a ha => hpos a (List.mem_cons_of_mem x ha))
            linarith
          exact max_le h1 h2

/-- Zipping keeps the whole second list when it is not longer than the
first. -/
theorem zip_map_snd (l2 : List ℚ) (l1 : List String)
    (h : l2.length ≤ l1.length) :
    (List.zip l1 l2).map Prod.snd = l2 := by
  induction l2 generalizing l1 with
  | nil => simp
  | cons x t ih =>
      cases l1 with
      | nil => simp at h
      | cons a s =>
          simp only [List.zip_cons_cons, List.map_cons]
          rw [ih s (by simpa using h)]

/-- C2 as amended: for every transaction on which the pipeline scoring
succeeds, predict returns category equal to the arg-max class of the
model (hence a member of the model class list), confidence equal to the
maximal probability, which is the probability of that arg-max class and
lies in the closed interval from 0 to 1; the all_probabilities mapping
pairs the hardcoded eight-category list positionally with the probability
vector, its values sum to 1 whenever the model has at most eight classes,
and it coincides with the per-class distribution exactly in the case that
the model class order equals the hardcoded list. -/
theorem predict_model_ready_props (m : MLModel) (now : PyDate)
    (description : String) (amount : ℚ) (date : Option PyDate)
    (probs : List ℚ)
    (hp : m.proba (preprocess_input now description amount date) = .ok probs)
    (hlen : probs.length = m.classes.length)
    (hne : m.classes ≠ [])
    (hpos : ∀ p ∈ probs, 0 ≤ p)
    (hsum : probs.sum = 1) :
    predictor_predict m now description amount date =
      .ok (skPredictClass m.classes probs) (listMax probs)
        (List.zip predictorCategories probs) description amount ∧
    skPredictClass m.classes probs ∈ m.classes ∧
    listMax probs = probs.getD (argmaxIdx probs) 0 ∧
    0 ≤ listMax probs ∧ listMax probs ≤ 1 ∧
    (probs.length ≤ predictorCategories.length →
      ((List.zip predictorCategories probs).map Prod.snd).sum = 1) ∧
    (m.classes = predictorCategories →
      List.zip predictorCategories probs = List.zip m.classes probs) := by
  have hprobs : probs ≠ [] := by
    intro h0
    apply hne
    have := hlen
    rw [h0] at this
    exact List.length_eq_zero.mp this.symm
  refine ⟨?_, ?_, ?_, ?_, ?_, ?_, ?_⟩
  · simp [predictor_predict, hp]
  · have hlt : argmaxIdx probs < m.classes.length := by
      rw [← hlen]; exact argmaxIdx_lt probs hprobs
    unfold skPredictClass
    rw [List.getD_eq_getElem m.classes "" hlt]
    exact List.getElem_mem hlt
  · exact (getD_argmaxIdx probs hprobs).symm
  · exact hpos (listMax probs) (listMax_mem probs hprobs)
  · have := listMax_le_sum probs hprobs hpos
    rw [hsum] at this
    exact this
  · intro hle
    rw [zip_map_snd probs predictorCategories hle, hsum]
  · intro hcls
    rw [hcls]

/-- Model and probability vector for the C2 witness: classes in the
hardcoded order and a point mass on the first class. -/
def wProbs : List ℚ := [1, 0, 0, 0, 0, 0, 0, 0]

/-- Witness model: classes equal to the hardcoded list, scoring always
succeeding with wProbs. -/
def wModel : MLModel :=
  { classes := predictorCategories, proba := fun _ => .ok wProbs }

/-- Concrete check of the prediction properties on the witness model. -/
theorem predict_model_ready_props_witness :
    predictor_predict wModel ⟨1, 0⟩ "x" 1 none =
      .ok (skPredictClass wModel.classes wProbs) (listMax wProbs)
        (List.zip predictorCategories wProbs) "x" 1 ∧
    skPredictClass wModel.classes wProbs ∈ wModel.classes := by
  have h := predict_model_ready_props wModel ⟨1, 0⟩ "x" 1 none wProbs
    rfl (by decide) (by decide)
    (by intro p hp; fin_cases hp <;> norm_num)
    (by norm_num [wProbs])
  exact ⟨h.1, h.2.1⟩

/-- The class order sklearn stores in the artifact: np.unique sorts the
training labels alphabetically, which differs from the hardcoded
self.categories order. -/
def sortedClasses : List String :=
  ["Entertainment", "Food", "Healthcare", "Income", "Other",
   "Shopping", "Transport", "Utilities"]

/-- A concrete probability vector aligned with sortedClasses. -/
def cexProbs : List ℚ := [1/2, 1/10, 1/20, 1/20, 1/20, 1/20, 1/10, 1/10]

/-- A model whose class order is the alphabetical one. -/
def cexModel : MLModel :=
  { classes := sortedClasses, proba := fun _ => .ok cexProbs }

/-- C2 counterexample: with the alphabetically ordered classes the
artifact actually stores, the all_probabilities dictionary assigns Food
the probability 1/2 that belongs to class Entertainment, while the model
probability of class Food is 1/10 — so the mapping does not assign each
category its own probability. -/
theorem predict_probability_map_misaligned :
    predictor_predict cexModel ⟨1, 0⟩ "x" 1 none =
      .ok "Entertainment" (1/2) (List.zip predictorCategories cexProbs) "x" 1 ∧
    List.lookup "Food" (List.zip predictorCategories cexProbs) =
      some (1/2) ∧
    List.lookup "Food" (List.zip cexModel.classes cexProbs) =
      some (1/10) ∧
    ((1 : ℚ)/2) ≠ 1/10 := by
  refine ⟨?_, ?_, ?_, by norm_num⟩
  · have hmax : listMax cexProbs = 1/2 := by
      simp only [cexProbs, listMax]
      norm_num
    have hidx : argmaxIdx cexProbs = 0 := by
      simp only [cexProbs, argmaxIdx, listMax]
      norm_num
    simp [predictor_predict, cexModel, skPredictClass, hmax, hidx, sortedClasses]
  · rfl
  · rfl

/-- C3: predict_batch returns exactly one result per transaction, in
input order: the i-th result is predict applied to the i-th
transaction — no reordering and no dropped entries. -/
theorem predict_batch_order (m : MLModel) (now : PyDate) (txs : List TxDict) :
    (predictor_predict_batch m now txs).length = txs.length ∧
    ∀ i, (hi : i < txs.length) →
      (predictor_predict_batch m now txs)[i]? =
        some (predictor_predict m now (txs[i]).description
          (txs[i]).amount (txs[i]).date) := by
  constructor
  · simp [predictor_predict_batch]
  · intro i hi
    simp [predictor_predict_batch, List.getElem?_eq_getElem,
      List.getElem?_eq_getElem hi]

/-- Concrete check of batch order preservation on a one-element batch. -/
theorem predict_batch_order_witness :
    (predictor_predict_batch wModel ⟨1, 0⟩
        [⟨"a", 1, none⟩])[0]? =
      some (predictor_predict wModel ⟨1, 0⟩ "a" 1 none) :=
  (predict_batch_order wModel ⟨1, 0⟩ [⟨"a", 1, none⟩]).2 0 (by decide)

/-- A model whose pipeline always raises. -/
def cfModel : MLModel :=
  { classes := predictorCategories,
    proba := fun _ => .error "malformed input" }

/-- C4 counterexample: when the pipeline throws on UBER RIDE #1234, the
caught error is downgraded to the fixed dictionary with category Other
and confidence 0.0, not to the fallback-categorized result, which would
be Transport with confidence 0.7. -/
theorem predict_error_not_fallback :
    predictor_predict cfModel ⟨1, 0⟩ "UBER RIDE #1234" (49/2) none =
      .err "Other" 0 "malformed input" ∧
    fallback_categorization "UBER RIDE #1234" (49/2) = ("Transport", 7/10) ∧
    ("Other" : String) ≠ "Transport" ∧ (0 : ℚ) ≠ 7/10 := by
  have hT : anyKw transportKws (lowerStr "UBER RIDE #1234") = true := by decide
  refine ⟨rfl, ?_, by decide, by norm_num⟩
  simp [fallback_categorization, hT]

/-- C4 as amended: if the pipeline throws on the i-th item of a batch,
ExpensePredictor.predict catches that error and downgrades it to the
fixed default result (category Other, confidence 0.0, the error text) for
that item, and every sibling item still receives the result of predict on
its own transaction — the failure never aborts the rest of the batch. -/
theorem predict_batch_isolates_pipeline_errors (m : MLModel) (now : PyDate)
    (txs : List TxDict) (i : ℕ) (hi : i < txs.length) (e : String)
    (hfail : m.proba (preprocess_input now (txs[i]).description
      (txs[i]).amount (txs[i]).date) = .error e) :
    (predictor_predict_batch m now txs).length = txs.length ∧
    (predictor_predict_batch m now txs)[i]? =
      some (.err "Other" 0 e) ∧
    ∀ j, (hj : j < txs.length) →
      (predictor_predict_batch m now txs)[j]? =
        some (predictor_predict m now (txs[j]).description
          (txs[j]).amount (txs[j]).date) := by
  refine ⟨by simp [predictor_predict_batch], ?_, ?_⟩
  · simp [predictor_predict_batch, List.getElem?_eq_getElem hi,
      predictor_predict, hfail]
  · intro j hj
    simp [predictor_predict_batch, List.getElem?_eq_getElem hj]

/-- Concrete check of per-item error isolation: a two-element batch whose
pipeline fails on the first item still yields two results, the first the
default error dictionary, the second its own predict result. -/
theorem predict_batch_isolates_pipeline_errors_witness :
    (predictor_predict_batch cfModel ⟨1, 0⟩
        [⟨"UBER RIDE #1234", 49/2, none⟩, ⟨"b", 2, none⟩]).length = 2 ∧
    (predictor_predict_batch cfModel ⟨1, 0⟩
        [⟨"UBER RIDE #1234", 49/2, none⟩, ⟨"b", 2, none⟩])[0]? =
      some (.err "Other" 0 "malformed input") := by
  have h := predict_batch_isolates_pipeline_errors cfModel ⟨1, 0⟩
    [⟨"UBER RIDE #1234", 49/2, none⟩, ⟨"b", 2, none⟩] 0 (by decide)
    "malformed input" rfl
  exact ⟨h.1, h.2.1⟩

/-! ## The HTTP-facing module state (src/app/backend/api.py)

The artifact on disk is one of three states: absent (os.path.exists is
false), present but corrupt (joblib.load raises), or loadable.  The api
module guards the load with try/except and leaves model = None on any
failure; ExpensePredictor.__init__ calls joblib.load bare. -/

/-- Embedding of the module-level model load of src/app/backend/api.py
lines 17-28: none when the file is absent or loading raised. -/
def api_load_model (artifact : Option (Except String MLModel)) :
    Option MLModel :=
  match artifact with
  | none => none
  | some (.ok m) => some m
  | some (.error _) => none

/-- Embedding of ExpensePredictor.__init__ (src/models/predict.py lines
8-11): self.model = joblib.load(model_path) with no exception handler, so
a missing file raises FileNotFoundError and a corrupt file re-raises the
load error; the error result means construction crashed. -/
def predictor_init (artifact : Option (Except String MLModel)) :
    Except String MLModel :=
  match artifact with
  | none => .error "FileNotFoundError"
  | some (.ok m) => .ok m
  | some (.error e) => .error e

/-- Response body of the api predict endpoint. -/
structure ApiPrediction where
  category : String
  confidence : ℚ
  description : String
  amount : ℚ
deriving DecidableEq

/-- Embedding of the predict endpoint (src/app/backend/api.py lines
120-149): fallback_categorization when no model is loaded, otherwise the
pipeline scoring on preprocess_for_prediction; a pipeline exception
becomes an HTTPException 400, carried here as the error branch.  The
date string is taken as already parsed (parse failures default to now in
the code and are not modelled). -/
def api_predict (m : Option MLModel) (now : PyDate) (t : TxDict) :
    Except String ApiPrediction :=
  match m with
  | none =>
      let r := fallback_categorization t.description t.amount
      .ok ⟨r.1, r.2, t.description, t.amount⟩
  | some mm =>
      match mm.proba (preprocess_for_prediction now t.description
        t.amount t.date) with
      | .ok probs =>
          .ok ⟨skPredictClass mm.classes probs, listMax probs,
            t.description, t.amount⟩
      | .error e => .error e

/-- C5 counterexample: constructing ExpensePredictor crashes when the
artifact file is missing (joblib.load raises FileNotFoundError) and when
it is corrupt (the load error propagates out of the constructor). -/
theorem predictor_init_crashes_on_missing_artifact :
    predictor_init none = .error "FileNotFoundError" ∧
    predictor_init (some (.error "corrupt artifact")) =
      .error "corrupt artifact" :=
  ⟨rfl, rfl⟩

/-- C5 as amended: when the artifact is missing or corrupt at startup,
the api module-level load never crashes — the failure is caught (and
logged) and the module proceeds with model = None, every prediction then
being served by fallback_categorization; the ExpensePredictor
constructor, by contrast, propagates the load failure to its caller. -/
theorem api_startup_fallback (artifact : Option (Except String MLModel))
    (h : artifact = none ∨ ∃ e, artifact = some (.error e)) :
    api_load_model artifact = none ∧
    (∀ now t, api_predict (api_load_model artifact) now t =
      .ok ⟨(fallback_categorization t.description t.amount).1,
        (fallback_categorization t.description t.amount).2,
        t.description, t.amount⟩) ∧
    (artifact = none → predictor_init artifact = .error "FileNotFoundError") := by
  have hm : api_load_model artifact = none := by
    rcases h with rfl | ⟨e, rfl⟩ <;> rfl
  refine ⟨hm, ?_, ?_⟩
  · intro now t
    rw [hm]
    rfl
  · intro hn
    rw [hn]
    rfl

/-- Concrete check: with a corrupt artifact the api serves the fallback
Transport result for an Uber ride. -/
theorem api_startup_fallback_witness :
    api_load_model (some (.error "corrupt artifact")) = none ∧
    api_predict (api_load_model (some (.error "corrupt artifact"))) ⟨1, 0⟩
        ⟨"UBER RIDE #1234", 49/2, none⟩ =
      .ok ⟨(fallback_categorization "UBER RIDE #1234" (49/2)).1,
        (fallback_categorization "UBER RIDE #1234" (49/2)).2,
        "UBER RIDE #1234", 49/2⟩ := by
  have h := api_startup_fallback (some (.error "corrupt artifact"))
    (Or.inr ⟨"corrupt artifact", rfl⟩)
  exact ⟨h.1, h.2.1 ⟨1, 0⟩ ⟨"UBER RIDE #1234", 49/2, none⟩⟩

/-! ## Batch insights (src/app/backend/api.py lines 151-181)

The predict-batch endpoint loops predict over the transactions and, when
the result list is non-empty, computes an insights dictionary: sum,
count, value_counts of the category column, means, max and min.  The
value_counts result is consumed through to_dict(), whose equality ignores
ordering, so category counts are embedded as an association list keyed in
first-seen order. -/

/-- np.min over a vector (pandas min of the amount column). -/
def listMin : List ℚ → ℚ
  | [] => 0
  | [x] => x
  | x :: y :: t => min x (listMin (y :: t))

/-- Distinct values in first-seen order, accumulating the already seen
ones. -/
def dedupFS (seen : List String) : List String → List String
  | [] => []
  | c :: rest =>
      if c ∈ seen then dedupFS seen rest
      else c :: dedupFS (c :: seen) rest

/-- Embedding of df.value_counts().to_dict() on the category column:
each distinct category paired with its number of occurrences. -/
def valueCounts (cats : List String) : List (String × ℕ) :=
  (dedupFS [] cats).map (fun c => (c, cats.count c))

/-- The insights dictionary of the predict-batch endpoint
(src/app/backend/api.py lines 163-171). -/
structure Insights where
  total_spent : ℚ
  total_transactions : ℕ
  category_counts : List (String × ℕ)
  average_confidence : ℚ
  average_amount : ℚ
  max_amount : ℚ
  min_amount : ℚ
deriving DecidableEq

/-- Embedding of the insights computation over a non-empty result list. -/
def api_insights (results : List ApiPrediction) : Insights :=
  { total_spent := (results.map (fun r => r.amount)).sum
    total_transactions := results.length
    category_counts := valueCounts (results.map (fun r => r.category))
    average_confidence :=
      (results.map (fun r => r.confidence)).sum / (results.length : ℚ)
    average_amount :=
      (results.map (fun r => r.amount)).sum / (results.length : ℚ)
    max_amount := listMax (results.map (fun r => r.amount))
    min_amount := listMin (results.map (fun r => r.amount)) }

/-- Embedding of the predict-batch endpoint: predict every transaction in
order, any single failure aborting the whole request with HTTPException
400; insights are attached when the result list is non-empty. -/
def api_predict_batch (m : Option MLModel) (now : PyDate)
    (txs : List TxDict) :
    Except String (List ApiPrediction × Option Insights) :=
  match txs.mapM (api_predict m now) with
  | .error e => .error e
  | .ok results =>
      .ok (results, if results.isEmpty then none else some (api_insights results))

/-- Membership in the first-seen dedup: exactly the elements of the list
that were not already seen. -/
theorem mem_dedupFS (c : String) :
    ∀ (l seen : List String), c ∈ dedupFS seen l ↔ (c ∈ l ∧ c ∉ seen) := by
  intro l
  induction l with
  | nil => intro seen; simp [dedupFS]
  | cons x t ih =>
      intro seen
      simp only [dedupFS]
      split_ifs with hx
      · rw [ih]
        constructor
        · rintro ⟨hc, hs⟩
          exact ⟨List.mem_cons_of_mem x hc, hs⟩
        · rintro ⟨hc, hs⟩
          rcases List.mem_cons.mp hc with rfl | hct
          · exact absurd hx hs
          · exact ⟨hct, hs⟩
      · constructor
        · intro hmem
          rcases List.mem_cons.mp hmem with rfl | hmem2
          · exact ⟨List.mem_cons_self _ _, hx⟩
          · rcases (ih (x :: seen)).mp hmem2 with ⟨hct, hs⟩
            refine ⟨List.mem_cons_of_mem x hct, fun hcs => hs ?_⟩
            exact List.mem_cons_of_mem x hcs
        · rintro ⟨hc, hs⟩
          rcases List.mem_cons.mp hc with rfl | hct
          · exact List.mem_cons_self _ _
          · by_cases hcx : c = x
            · subst hcx
              exact List.mem_cons_self _ _
            · refine List.mem_cons_of_mem x ((ih (x :: seen)).mpr ⟨hct, ?_⟩)
              simp [List.mem_cons, hcx, hs]

/-- Splitting the not-yet-seen elements of a list at one fresh value c:
they are the occurrences of c plus the elements fresh for c :: seen. -/
theorem filter_length_split (c : String) :
    ∀ (l seen : List String), c ∉ seen →
      (l.filter (fun x => decide (x ∉ seen))).length =
        l.count c + (l.filter (fun x => decide (x ∉ c :: seen))).length := by
  intro l
  induction l with
  | nil => intro seen h; simp
  | cons x t ih =>
      intro seen h
      by_cases hxc : x = c
      · subst hxc
        have hx1 : (decide (x ∉ seen)) = true := by simpa using h
        have hx2 : (decide (x ∉ x :: seen)) = false := by simp
        rw [List.filter_cons, List.filter_cons, hx1, hx2]
        simp only [if_true, Bool.false_eq_true, if_false,
          List.length_cons, List.count_cons_self]
        rw [ih seen h]
        omega
      · have hcx : (x == c) = false := beq_eq_false_iff_ne.mpr hxc
        have hcount : (x :: t).count c = t.count c := by
          simp [List.count_cons, hcx]
        by_cases hxs : x ∈ seen
        · have hx1 : (decide (x ∉ seen)) = false := by simpa using hxs
          have hx2 : (decide (x ∉ c :: seen)) = false := by
            simp [List.mem_cons, hxs]
          rw [List.filter_cons, List.filter_cons, hx1, hx2]
          simp only [Bool.false_eq_true, if_false]
          rw [hcount, ih seen h]
        · have hx1 : (decide (x ∉ seen)) = true := by simpa using hxs
          have hx2 : (decide (x ∉ c :: seen)) = true := by
            simp [List.mem_cons, hxs, hxc]
          rw [List.filter_cons, List.filter_cons, hx1, hx2]
          simp only [if_true, List.length_cons]
          rw [hcount, ih seen h]
          omega

/-- Summing the occurrence counts over the distinct not-yet-seen values
gives the number of fresh elements. -/
theorem dedupFS_count_sum :
    ∀ (l seen : List String),
      ((dedupFS seen l).map (fun c => l.count c)).sum =
        (l.filter (fun x => decide (x ∉ seen))).length := by
  intro l
  induction l with
  | nil => intro seen; simp [dedupFS]
  | cons x t ih =>
      intro seen
      simp only [dedupFS]
      split_ifs with hx
      · have hkeys : ∀ c ∈ dedupFS seen t, (x :: t).count c = t.count c := by
          intro c hc
          have hcs : c ∉ seen := ((mem_dedupFS c t seen).mp hc).2
          have hcx : (x == c) = false :=
            beq_eq_false_iff_ne.mpr (fun he => hcs (he ▸ hx))
          simp [List.count_cons, hcx]
        rw [List.map_congr_left hkeys, ih seen]
        have hx1 : (decide (x ∉ seen)) = false := by simpa using hx
        rw [List.filter_cons, hx1]
        simp
      · have hkeys : ∀ c ∈ dedupFS (x :: seen) t,
            (x :: t).count c = t.count c := by
          intro c hc
          have hcs : c ∉ x :: seen := ((mem_dedupFS c t (x :: seen)).mp hc).2
          have hcx : (x == c) = false :=
            beq_eq_false_iff_ne.mpr (fun he => hcs (by simp [he]))
          simp [List.count_cons, hcx]
        simp only [List.map_cons, List.sum_cons]
        rw [List.map_congr_left hkeys, ih (x :: seen)]
        have hx1 : (decide (x ∉ seen)) = true := by simpa using hx
        rw [List.filter_cons, hx1]
        simp only [if_true, List.length_cons, List.count_cons_self]
        rw [filter_length_split x t seen hx]
        omega

/-- The values of value_counts sum to the length of the column. -/
theorem valueCounts_sum (cats : List String) :
    ((valueCounts cats).map Prod.snd).sum = cats.length := by
  have h := dedupFS_count_sum cats []
  have hfil : cats.filter (fun x => decide (x ∉ ([] : List String))) = cats := by
    apply List.filter_eq_self.mpr
    intro a ha
    simp
  rw [hfil] at h
  rw [valueCounts, List.map_map]
  simpa [Function.comp_def] using h

/-- The keys of value_counts are exactly the categories that appear. -/
theorem valueCounts_keys (cats : List String) (c : String) :
    (∃ n, (c, n) ∈ valueCounts cats) ↔ c ∈ cats := by
  constructor
  · rintro ⟨n, hn⟩
    rcases List.mem_map.mp hn with ⟨a, ha, heq⟩
    have hac : a = c := congrArg Prod.fst heq
    subst hac
    exact ((mem_dedupFS a cats []).mp ha).1
  · intro hc
    refine ⟨cats.count c, List.mem_map.mpr ⟨c, ?_, rfl⟩⟩
    exact (mem_dedupFS c cats []).mpr ⟨hc, List.not_mem_nil c⟩

/-- Each value_counts entry carries the occurrence count of its key. -/
theorem valueCounts_val (cats : List String) (c : String) (n : ℕ)
    (h : (c, n) ∈ valueCounts cats) : n = cats.count c := by
  rcases List.mem_map.mp h with ⟨a, _, heq⟩
  have hac : a = c := congrArg Prod.fst heq
  have hn : cats.count a = n := congrArg Prod.snd heq
  rw [← hn, hac]

/-- A concrete result batch: two Food predictions of amounts 5 and 7. -/
def c9Results : List ApiPrediction :=
  [⟨"Food", 7/10, "LUNCH", 5⟩, ⟨"Food", 7/10, "DINNER", 7⟩]

/-- C9 counterexample: on a two-element Food batch the insights report
total_spent 12, but the only per-category structure the summary carries
is the count map, whose values (here 2) do not sum to the total amount;
no per-category amount totals and no top-N-by-amount list exist in the
insights record. -/
theorem insights_no_amount_totals :
    (api_insights c9Results).total_spent = 12 ∧
    (api_insights c9Results).category_counts = [("Food", 2)] ∧
    (((api_insights c9Results).category_counts.map
        (fun p => (p.2 : ℚ))).sum ≠ (api_insights c9Results).total_spent) := by
  have ht : (api_insights c9Results).total_spent = 12 := by
    simp [api_insights, c9Results]
    norm_num
  have hc : (api_insights c9Results).category_counts = [("Food", 2)] := by
    simp [api_insights, c9Results, valueCounts, dedupFS]
  refine ⟨ht, hc, ?_⟩
  rw [ht, hc]
  norm_num

/-- C9 as amended: for every non-empty batch of prediction results the
insights total_spent equals the sum of the individual amounts; the
per-category map of the summary records counts, not amount totals,
grouped over exactly the categories that appear (absent categories
omitted), with each entry carrying the occurrence count of its category
and the counts summing to the number of results; the summary contains no
per-category amount totals and no top-N list. -/
theorem insights_totals_and_counts (results : List ApiPrediction)
    (h : results ≠ []) :
    (api_insights results).total_spent =
      (results.map (fun r => r.amount)).sum ∧
    (∀ c, (∃ n, (c, n) ∈ (api_insights results).category_counts) ↔
      c ∈ results.map (fun r => r.category)) ∧
    (∀ c n, (c, n) ∈ (api_insights results).category_counts →
      n = (results.map (fun r => r.category)).count c) ∧
    ((api_insights results).category_counts.map Prod.snd).sum =
      results.length := by
  refine ⟨rfl, ?_, ?_, ?_⟩
  · intro c
    exact valueCounts_keys (results.map (fun r => r.category)) c
  · intro c n hn
    have hn2 : (c, n) ∈ valueCounts (results.map (fun r => r.category)) := hn
    exact valueCounts_val (results.map (fun r => r.category)) c n hn2
  · have := valueCounts_sum (results.map (fun r => r.category))
    simpa using this

/-- Concrete check of the amended insight properties on the Food batch. -/
theorem insights_totals_and_counts_witness :
    (api_insights c9Results).total_spent =
      (c9Results.map (fun r => r.amount)).sum ∧
    ((api_insights c9Results).category_counts.map Prod.snd).sum =
      c9Results.length := by
  have h := insights_totals_and_counts c9Results (by decide)
  exact ⟨h.1, h.2.2.2⟩

/-! ## The trainer (src/models/train.py)

ExpenseClassifier.prepare_features builds
numeric_features = [...] + [f has_k for k in keywords] on lines 51-53.
Python resolves the free name keywords through the local scope of
prepare_features and then the module globals; keywords is assigned only
as a local variable inside load_data, so the lookup fails with a
NameError before the train/test split runs.  train_full_pipeline has no
exception handler, so the error propagates and save_model on line 131 is
never reached. -/

/-- Errors of the training path: the unhandled Python NameError, and the
ValueError that a stratified split with an empty or under-populated class
would raise (the DataError of the specification). -/
inductive PyErr where
  | nameError (missing : String)
  | valueError (msg : String)
deriving DecidableEq

/-- The names visible where prepare_features evaluates numeric_features:
its locals assigned before line 51 (self, df, X, y, text_features) and
the module-level globals of src/models/train.py (the imports and the
class itself).  keywords is not among them: it is local to load_data. -/
def prepareFeaturesScope : List String :=
  ["self", "df", "X", "y", "text_features",
   "pd", "np", "train_test_split", "TfidfVectorizer", "StandardScaler",
   "ColumnTransformer", "Pipeline", "RandomForestClassifier",
   "GradientBoostingClassifier", "LogisticRegression",
   "classification_report", "accuracy_score", "joblib", "warnings",
   "ExpenseClassifier"]

/-- Embedding of ExpenseClassifier.prepare_features (src/models/train.py
lines 44-65): evaluating numeric_features resolves the name keywords; if
it resolved, the stratified split would follow (unreachable). -/
def prepare_features (df : List (List (String × FVal))) :
    Except PyErr Unit :=
  if "keywords" ∈ prepareFeaturesScope then
    .ok ()
  else
    .error (PyErr.nameError "keywords")

/-- Outcome of ExpenseClassifier.train_full_pipeline: the error it
raised, if any, and whether save_model wrote the artifact. -/
structure TrainRun where
  raised : Option PyErr
  savedArtifact : Bool
deriving DecidableEq

/-- Embedding of ExpenseClassifier.train_full_pipeline (src/models/train.py
lines 117-131): load_data, prepare_features, then training, evaluation
and save_model — the latter three only when prepare_features returns. -/
def train_full_pipeline (rows : List CsvRow) : TrainRun :=
  let df := load_data rows
  match prepare_features df with
  | .error e => { raised := some e, savedArtifact := false }
  | .ok _ => { raised := none, savedArtifact := true }

/-- C10: for every input frame, prepare_features raises the unhandled
NameError on the free name keywords, which is in scope only inside
load_data; consequently train_full_pipeline never reaches model fitting
and never persists a model artifact, on any input dataset. -/
theorem prepare_features_name_error (df : List (List (String × FVal)))
    (rows : List CsvRow) :
    prepare_features df = .error (PyErr.nameError "keywords") ∧
    (train_full_pipeline rows).raised =
      some (PyErr.nameError "keywords") ∧
    (train_full_pipeline rows).savedArtifact = false := by
  have hs : ("keywords" ∈ prepareFeaturesScope) = False := by
    simp [prepareFeaturesScope]
  refine ⟨?_, ?_, ?_⟩ <;> simp [prepare_features, train_full_pipeline, hs]

/-- C6 evaluation at the failing input: on the empty dataset the training
run raises the NameError, not the stratification DataError, and no
artifact is persisted. -/
theorem train_empty_dataset_raises_name_error :
    (train_full_pipeline []).raised = some (PyErr.nameError "keywords") ∧
    (train_full_pipeline []).raised ≠
      some (PyErr.valueError "stratify") ∧
    (train_full_pipeline []).savedArtifact = false := by
  refine ⟨?_, ?_, ?_⟩ <;> decide

/-! ## Candidate model selection (src/models/train.py lines 67-110) -/

/-- The three candidate classifiers, in the iteration order of the models
dictionary of train_models. -/
inductive Candidate where
  | logistic_regression
  | random_forest
  | gradient_boosting
deriving DecidableEq

/-- Iteration order of the candidates. -/
def candidateList : List Candidate :=
  [Candidate.logistic_regression, Candidate.random_forest,
   Candidate.gradient_boosting]

/-- Embedding of ExpenseClassifier.train_models (src/models/train.py
lines 67-99): each candidate is fitted as a full
preprocessing + classifier pipeline and scored on the training set
(pipeline.score(X_train, y_train), abstracted as trainAcc); starting from
best_model = None and best_score = 0 the loop keeps the candidate
whenever its score strictly exceeds the best so far. -/
def train_models (trainAcc : Candidate → ℚ) : Option Candidate × ℚ :=
  candidateList.foldl
    (fun best name =>
      if best.2 < trainAcc name then (some name, trainAcc name) else best)
    (none, 0)

/-- The selection together with the reported held-out accuracy of
evaluate (src/models/train.py lines 101-110), which prints the test-set
accuracy of the already selected model and changes nothing. -/
structure FullRun where
  selected : Option Candidate
  selectedTrainAcc : ℚ
  reportedTestAcc : ℚ

/-- train_full_pipeline steps 3 and 4: select on training accuracy, then
evaluate the selected model on the held-out split for reporting only. -/
def runTrainAndEvaluate (trainAcc testAcc : Candidate → ℚ) : FullRun :=
  let best := train_models trainAcc
  { selected := best.1
    selectedTrainAcc := best.2
    reportedTestAcc :=
      match best.1 with
      | some c => testAcc c
      | none => 0 }

/-- The three-step fold of train_models written as a decision tree. -/
theorem train_models_eq (f : Candidate → ℚ) :
    train_models f =
      (if 0 < f Candidate.logistic_regression then
        (if f Candidate.logistic_regression < f Candidate.random_forest then
          (if f Candidate.random_forest < f Candidate.gradient_boosting then
            (some Candidate.gradient_boosting, f Candidate.gradient_boosting)
          else (some Candidate.random_forest, f Candidate.random_forest))
        else
          (if f Candidate.logistic_regression < f Candidate.gradient_boosting then
            (some Candidate.gradient_boosting, f Candidate.gradient_boosting)
          else (some Candidate.logistic_regression,
            f Candidate.logistic_regression)))
      else
        (if (0 : ℚ) < f Candidate.random_forest then
          (if f Candidate.random_forest < f Candidate.gradient_boosting then
            (some Candidate.gradient_boosting, f Candidate.gradient_boosting)
          else (some Candidate.random_forest, f Candidate.random_forest))
        else
          (if (0 : ℚ) < f Candidate.gradient_boosting then
            (some Candidate.gradient_boosting, f Candidate.gradient_boosting)
          else (none, 0)))) := by
  by_cases h1 : (0 : ℚ) < f Candidate.logistic_regression
  · by_cases h2 : f Candidate.logistic_regression < f Candidate.random_forest <;>
      simp [train_models, candidateList, h1, h2]
  · by_cases h2 : (0 : ℚ) < f Candidate.random_forest <;>
      simp [train_models, candidateList, h1, h2]

/-- C7: train_models fits all three candidates (linear, random forest,
gradient boosting) as full preprocessing + classifier pipelines, scores
each on its training-set accuracy and, provided some candidate scores
positively, selects a candidate whose training accuracy is maximal over
the three, recording that training score; the held-out accuracy reported
afterwards by evaluate plays no role in the selection: the selected model
is the same whatever the test scores are. -/
theorem train_models_selects_best_training_score (trainAcc : Candidate → ℚ)
    (h : ∃ c ∈ candidateList, 0 < trainAcc c) :
    (train_models trainAcc).1.isSome = true ∧
    (∀ c, (train_models trainAcc).1 = some c →
      c ∈ candidateList ∧
      (train_models trainAcc).2 = trainAcc c ∧
      ∀ d ∈ candidateList, trainAcc d ≤ trainAcc c) ∧
    (∀ testAcc testAcc2 : Candidate → ℚ,
      (runTrainAndEvaluate trainAcc testAcc).selected =
        (runTrainAndEvaluate trainAcc testAcc2).selected) := by
  have hind : ∀ t1 t2 : Candidate → ℚ,
      (runTrainAndEvaluate trainAcc t1).selected =
        (runTrainAndEvaluate trainAcc t2).selected := fun _ _ => rfl
  have key : ∃ c, (train_models trainAcc).1 = some c ∧ c ∈ candidateList ∧
      (train_models trainAcc).2 = trainAcc c ∧
      ∀ d ∈ candidateList, trainAcc d ≤ trainAcc c := by
    rw [train_models_eq]
    by_cases h1 : (0 : ℚ) < trainAcc Candidate.logistic_regression
    · by_cases h2 : trainAcc Candidate.logistic_regression <
          trainAcc Candidate.random_forest
      · by_cases h3 : trainAcc Candidate.random_forest <
            trainAcc Candidate.gradient_boosting
        · refine ⟨Candidate.gradient_boosting, by simp [h1, h2, h3],
            by decide, by simp [h1, h2, h3], ?_⟩
          intro d hd
          simp only [candidateList, List.mem_cons, List.not_mem_nil, or_false] at hd
          rcases hd with rfl | rfl | rfl <;> linarith
        · rw [not_lt] at h3
          refine ⟨Candidate.random_forest, by simp [h1, h2, not_lt.mpr h3],
            by decide, by simp [h1, h2, not_lt.mpr h3], ?_⟩
          intro d hd
          simp only [candidateList, List.mem_cons, List.not_mem_nil, or_false] at hd
          rcases hd with rfl | rfl | rfl <;> linarith
      · rw [not_lt] at h2
        by_cases h3 : trainAcc Candidate.logistic_regression <
            trainAcc Candidate.gradient_boosting
        · refine ⟨Candidate.gradient_boosting,
            by simp [h1, not_lt.mpr h2, h3], by decide,
            by simp [h1, not_lt.mpr h2, h3], ?_⟩
          intro d hd
          simp only [candidateList, List.mem_cons, List.not_mem_nil, or_false] at hd
          rcases hd with rfl | rfl | rfl <;> linarith
        · rw [not_lt] at h3
          refine ⟨Candidate.logistic_regression,
            by simp [h1, not_lt.mpr h2, not_lt.mpr h3], by decide,
            by simp [h1, not_lt.mpr h2, not_lt.mpr h3], ?_⟩
          intro d hd
          simp only [candidateList, List.mem_cons, List.not_mem_nil, or_false] at hd
          rcases hd with rfl | rfl | rfl <;> linarith
    · rw [not_lt] at h1
      by_cases h2 : (0 : ℚ) < trainAcc Candidate.random_forest
      · by_cases h3 : trainAcc Candidate.random_forest <
            trainAcc Candidate.gradient_boosting
        · refine ⟨Candidate.gradient_boosting,
            by simp [not_lt.mpr h1, h2, h3], by decide,
            by simp [not_lt.mpr h1, h2, h3], ?_⟩
          intro d hd
          simp only [candidateList, List.mem_cons, List.not_mem_nil, or_false] at hd
          rcases hd with rfl | rfl | rfl <;> linarith
        · rw [not_lt] at h3
          refine ⟨Candidate.random_forest,
            by simp [not_lt.mpr h1, h2, not_lt.mpr h3], by decide,
            by simp [not_lt.mpr h1, h2, not_lt.mpr h3], ?_⟩
          intro d hd
          simp only [candidateList, List.mem_cons, List.not_mem_nil, or_false] at hd
          rcases hd with rfl | rfl | rfl <;> linarith
      · rw [not_lt] at h2
        by_cases h3 : (0 : ℚ) < trainAcc Candidate.gradient_boosting
        · refine ⟨Candidate.gradient_boosting,
            by simp [not_lt.mpr h1, not_lt.mpr h2, h3], by decide,
            by simp [not_lt.mpr h1, not_lt.mpr h2, h3], ?_⟩
          intro d hd
          simp only [candidateList, List.mem_cons, List.not_mem_nil, or_false] at hd
          rcases hd with rfl | rfl | rfl <;> linarith
        · rw [not_lt] at h3
          exfalso
          obtain ⟨c0, hc0m, hc0⟩ := h
          simp only [candidateList, List.mem_cons, List.not_mem_nil, or_false] at hc0m
          rcases hc0m with rfl | rfl | rfl <;> linarith
  obtain ⟨c, hc, hmem, hsc, hmax⟩ := key
  refine ⟨by simp [hc], ?_, hind⟩
  intro c2 hc2
  rw [hc] at hc2
  injection hc2 with he
  subst he
  exact ⟨hmem, hsc, hmax⟩

/-- Training accuracies for the C7 witness: the random forest candidate
reaches the strictly best score. -/
def wAcc : Candidate → ℚ
  | Candidate.logistic_regression => 9/10
  | Candidate.random_forest => 1
  | Candidate.gradient_boosting => 1

/-- Concrete check that a selection takes place on the witness scores. -/
theorem train_models_selects_best_training_score_witness :
    (train_models wAcc).1.isSome = true :=
  (train_models_selects_best_training_score wAcc
    ⟨Candidate.random_forest, by decide, by norm_num [wAcc]⟩).1

end ExpenseCat

